import Mathlib

/-!
Shallow embedding of the alignment VAE model in
`src/alignments/models/vae.py` (classes `InferenceNetwork` and
`AlignmentVAE`).  Tensors of shape [B, T_y, T_x] are embedded as functions
`Fin B → Fin Ty → Fin Tx → ℚ`; machine floats are modelled by exact
rationals, except where IEEE NaN behaviour matters, which is modelled by
`Option ℚ` with `none` standing for NaN.  Transcendental kernels
(log-softmax, exp, sqrt, the Kumaraswamy CDF) are passed in as abstract
function parameters, since the claims under study never depend on their
values, only on how the surrounding code combines them.
-/

/-- Modelled from the spec: the module-level stabilizer `epsilon` imported
from `alignments.constants`, whose defining file is not among the provided
sources.  The spec treats it as a small positive constant; we use `10 ^ (-6)`
as a nominal value for concrete evaluations and quantify theorems over the
constant wherever a result could depend on its value. -/
def epsilon : ℚ := 1 / 1000000

/-- The distribution family variants appearing in `vae.py`:
`BernoulliREINFORCE`, `BernoulliStraightThrough`, `BinaryConcrete`,
`Kumaraswamy`, and `Rectified01(Stretched(Kumaraswamy))`. -/
inductive DistFamily where
  | bernoulliREINFORCE
  | bernoulliStraightThrough
  | binaryConcrete
  | kumaraswamy
  | rectifiedStretchedKuma
  deriving DecidableEq, Repr

/-- Exceptions raised by the embedded code paths. -/
inductive ModelError where
  | notImplemented
  | unknownDist (dist : String)
  | invalidPriorParams (p1 p2 : ℚ)
  | invalidKumaParams (p1 p2 : ℚ)
  | keyError
  | unknownReduction (reduction : String)
  deriving DecidableEq, Repr

/-- Substring containment on lists, models the Python `in` operator on
strings (`"bernoulli" in self.dist`). -/
def listIsInfixOf (needle : List Char) : List Char → Bool
  | [] => needle.isEmpty
  | c :: rest => List.isPrefixOf needle (c :: rest) || listIsInfixOf needle rest

/-- Model of the Python expression `needle in hay`. -/
def strIn (needle hay : String) : Bool :=
  listIsInfixOf needle.toList hay.toList

/-- Family dispatch of `InferenceNetwork.forward` (vae.py lines 59-103).
The tensor computation (embedding, encoding, bilinear attention) only
produces the logits; which distribution class is constructed, and which
branches raise, depends only on `self.dist`, which is what the claims
inspect. -/
def InferenceNetwork.forwardFamily (dist : String) : Except ModelError DistFamily :=
  if dist = "bernoulli-RF" ∨ dist = "bernoulli-ST" ∨ dist = "concrete" then
    if dist = "bernoulli-RF" then Except.ok DistFamily.bernoulliREINFORCE
    else if dist = "bernoulli-ST" then Except.ok DistFamily.bernoulliStraightThrough
    else Except.ok DistFamily.binaryConcrete
  else if dist = "kuma" ∨ dist = "hardkuma" then Except.error ModelError.notImplemented
  else Except.error (ModelError.unknownDist dist)

/-- Model of `seq_mask_x.float()`: a boolean mask entry as a number. -/
def maskFloat (m : Bool) : ℚ := if m then 1 else 0

/-- A per-cell tensor of shape [B, T_y, T_x]. -/
abbrev Cells (B Ty Tx : ℕ) := Fin B → Fin Ty → Fin Tx → ℚ

/-- Result of `AlignmentVAE.prior`: which distribution object is built and
with which per-cell parameters.  `bernoulliRF` carries the probabilities of
the `BernoulliREINFORCE` object built on line 161; `kuma` and `hardKuma`
carry the two Kumaraswamy shape tensors, the latter wrapped in
`Rectified01(Stretched(·, -0.1, 1.1))`. -/
inductive PriorResult (B Ty Tx : ℕ) where
  | bernoulliRF (probs : Cells B Ty Tx)
  | kuma (a b : Cells B Ty Tx)
  | hardKuma (a b : Cells B Ty Tx)

/-- The family variant of a constructed prior. -/
def PriorResult.family {B Ty Tx : ℕ} : PriorResult B Ty Tx → DistFamily
  | .bernoulliRF _ => DistFamily.bernoulliREINFORCE
  | .kuma _ _ => DistFamily.kumaraswamy
  | .hardKuma _ _ => DistFamily.rectifiedStretchedKuma

/-- Embedding of `AlignmentVAE.prior` (vae.py lines 141-181).  `table` is
`self.hardkuma_prior_table` as a partial map (a missing key raises, modelled
by `ModelError.keyError`); `eps` is the `epsilon` constant.  The Python
function implicitly returns `None` when `dist` matches no branch, modelled
by `Except.ok none`. -/
def AlignmentVAE.prior (B Ty Tx : ℕ) (dist : String) (p1 p2 eps : ℚ)
    (table : ℕ → Option (ℚ × ℚ))
    (seq_mask_x : Fin B → Fin Tx → Bool) (seq_len_x : Fin B → ℕ) :
    Except ModelError (Option (PriorResult B Ty Tx)) :=
  if strIn "bernoulli" dist then
    if 0 < p1 then
      -- prior_param_1 words per sentence; clamp(probs, max=(1-0.01));
      -- unsqueeze(1).repeat over T_y makes the value independent of j.
      Except.ok (some (PriorResult.bernoulliRF (fun b _ i =>
        min (p1 * (maskFloat (seq_mask_x b i) + eps) / ((seq_len_x b : ℚ) + 1))
            (1 - 1 / 100))))
    else if 0 < p2 then
      -- fixed prior_param_2 probability of an alignment
      Except.ok (some (PriorResult.bernoulliRF (fun _ _ _ => p2)))
    else Except.error (ModelError.invalidPriorParams p1 p2)
  else if dist = "concrete" then Except.error ModelError.notImplemented
  else if dist = "kuma" ∨ dist = "hardkuma" then
    if 0 < p1 ∧ 0 < p2 then
      Except.ok (some (if dist = "kuma" then
        PriorResult.kuma (fun _ _ _ => p1) (fun _ _ _ => p2)
      else
        PriorResult.hardKuma (fun _ _ _ => p1) (fun _ _ _ => p2)))
    else if dist = "hardkuma" ∧ 0 < p1 then
      if h : ∀ b : Fin B, (table (seq_len_x b)).isSome then
        Except.ok (some (PriorResult.hardKuma
          (fun b _ _ => ((table (seq_len_x b)).get (h b)).1) (fun _ _ _ => 1)))
      else Except.error ModelError.keyError
    else Except.error (ModelError.invalidKumaParams p1 p2)
  else Except.ok none

/-- The family variant of the prior built by `AlignmentVAE.prior`. -/
def AlignmentVAE.priorFamily (B Ty Tx : ℕ) (dist : String) (p1 p2 eps : ℚ)
    (table : ℕ → Option (ℚ × ℚ))
    (seq_mask_x : Fin B → Fin Tx → Bool) (seq_len_x : Fin B → ℕ) :
    Except ModelError (Option DistFamily) :=
  (AlignmentVAE.prior B Ty Tx dist p1 p2 eps table seq_mask_x seq_len_x).map
    (Option.map PriorResult.family)

/-- The target zero-probability from `_create_hardkuma_prior_table`
(vae.py line 206): `p0 = 1.0 - min(((1.0 + epsilon) / (length + 1.0)), 1.0 - epsilon)`. -/
def p0 (eps : ℚ) (length : ℕ) : ℚ :=
  1 - min ((1 + eps) / ((length : ℚ) + 1)) (1 - eps)

/-- Model of `torch.linspace(start=s, end=e, steps=N)` as an exact rational grid. -/
def linspace (s e : ℚ) (N : ℕ) : List ℚ :=
  (List.range N).map (fun (i : ℕ) => s + (e - s) * (i : ℚ) / ((N : ℚ) - 1))

/-- Insert a triple into a list sorted by first component; auxiliary for
the Python `sorted(kuma_priors, key=lambda elem: elem[0])`. -/
def insertByFirst (x : ℚ × ℚ × ℚ) : List (ℚ × ℚ × ℚ) → List (ℚ × ℚ × ℚ)
  | [] => [x]
  | y :: ys => if x.1 ≤ y.1 then x :: y :: ys else y :: insertByFirst x ys

/-- Insertion sort by first component, models
`sorted(kuma_priors, key=lambda elem: elem[0])` (vae.py line 200). -/
def sortByFirst : List (ℚ × ℚ × ℚ) → List (ℚ × ℚ × ℚ)
  | [] => []
  | x :: xs => insertByFirst x (sortByFirst xs)

/-- The sorted candidate list `(a, 1.0, CDF(0))` built in
`_create_hardkuma_prior_table` (vae.py lines 187-200).  The second
component is fixed to `b = 1.0`; `cdfAtZero a` abstracts the transcendental
`Kumaraswamy(a, 1.0).cdf(k0)` at `k0 = -l / (r - l)` with `l = -0.1`,
`r = 1.1`. -/
def mkKumaPriors (cdfAtZero : ℚ → ℚ) (eps : ℚ) (N : ℕ) : List (ℚ × ℚ × ℚ) :=
  sortByFirst ((linspace eps 1 N).map (fun a => (a, 1, cdfAtZero a)))

/-- The linear scan of vae.py lines 207-211: starting from `cdf0 = inf`,
repeatedly read the next candidate while `cdf0 > p0` and candidates remain;
the last candidate read supplies `(a, b)`.  An empty candidate list would
leave `a`, `b` unbound in Python (a NameError), modelled by `none`. -/
def scanPriors (p0v : ℚ) : List (ℚ × ℚ × ℚ) → Option (ℚ × ℚ)
  | [] => none
  | t :: rest =>
      if t.2.2 ≤ p0v then some (t.1, t.2.1)
      else
        match rest with
        | [] => some (t.1, t.2.1)
        | r :: rs => scanPriors p0v (r :: rs)

/-- Embedding of `AlignmentVAE._create_hardkuma_prior_table`
(vae.py lines 183-212) as the finished lookup table: the Python dict has a
key for `length` exactly when `1 ≤ length ≤ max_sentence_length`; a missing
key is `none`. -/
def AlignmentVAE.create_hardkuma_prior_table (cdfAtZero : ℚ → ℚ) (eps : ℚ)
    (max_sentence_length N : ℕ) : ℕ → Option (ℚ × ℚ) :=
  fun length =>
    if 1 ≤ length ∧ length ≤ max_sentence_length then
      scanPriors (p0 eps length) (mkKumaPriors cdfAtZero eps N)
    else none

/-- Model of `F.cross_entropy(logits, y, ignore_index=pad_idx, reduction="none")`
(vae.py lines 279-280): a position whose target token is the padding index
contributes exactly `0`; any other position contributes the negative
log-softmax score of its target token, abstracted as `ce`. -/
def cross_entropy_none (B Ty V : ℕ) (ce : (Fin V → ℚ) → Fin V → ℚ)
    (logits : Fin B → Fin Ty → Fin V → ℚ) (y : Fin B → Fin Ty → Fin V)
    (pad_idx : Fin V) : Fin B → Fin Ty → ℚ :=
  fun b j => if y b j = pad_idx then 0 else ce (logits b j) (y b j)

/-- The two `torch.where` masking steps applied to the per-cell KL tensor
(vae.py lines 288-289): a cell is zeroed unless its source position is
valid (`seq_mask_x b i`) and its target position is valid (`seq_mask_y b j`). -/
def maskKL (B Ty Tx : ℕ) (seq_mask_x : Fin B → Fin Tx → Bool)
    (seq_mask_y : Fin B → Fin Ty → Bool) (KLcell : Cells B Ty Tx) :
    Cells B Ty Tx :=
  fun b j i =>
    let k1 := if seq_mask_x b i then KLcell b j i else 0
    if seq_mask_y b j then k1 else 0

/-- Model of `KL.sum(dim=-1).sum(dim=-1)` after masking (vae.py line 292). -/
def KLsum (B Ty Tx : ℕ) (seq_mask_x : Fin B → Fin Tx → Bool)
    (seq_mask_y : Fin B → Fin Ty → Bool) (KLcell : Cells B Ty Tx) :
    Fin B → ℚ :=
  fun b => ∑ j, ∑ i, maskKL B Ty Tx seq_mask_x seq_mask_y KLcell b j i

/-- Model of `neg_log_py_xa.sum(dim=-1)`: the reconstruction negative
log-likelihood summed over target positions. -/
def recNLL (B Ty V : ℕ) (ce : (Fin V → ℚ) → Fin V → ℚ)
    (logits : Fin B → Fin Ty → Fin V → ℚ) (y : Fin B → Fin Ty → Fin V)
    (pad_idx : Fin V) : Fin B → ℚ :=
  fun b => ∑ j, cross_entropy_none B Ty V ce logits y pad_idx b j

/-- The reduced loss value: a scalar for reductions `mean` and `sum`, the
per-element vector for reduction `none`. -/
inductive LossReduced (B : ℕ) where
  | scalar (x : ℚ)
  | vec (v : Fin B → ℚ)

/-- The `output_dict` of `AlignmentVAE.loss`, restricted to the fields the
claims inspect; `lossPre` is the per-element loss right before the
reduction step. -/
structure LossOutput (B Ty : ℕ) where
  log_py_xa : Fin B → Fin Ty → ℚ
  KL : Fin B → ℚ
  ELBO : Fin B → ℚ
  lossPre : Fin B → ℚ
  loss : LossReduced B

/-- The control-variate pipeline shared by `loss` (vae.py lines 301-313)
and `ppo_loss` (lines 348-357): starting from the raw per-position reward,
optionally subtract the self-critic score, optionally subtract the running
mean baseline, optionally divide by the running std baseline clamped below
at 1.  Gradient detachment has no effect on values and is dropped. -/
def normalizeReward (B Ty : ℕ) (use_self_critic_cv use_mean_cv use_std_cv : Bool)
    (avg_reward std_reward : ℚ) (self_critic_score : Fin B → Fin Ty → ℚ)
    (reward : Fin B → Fin Ty → ℚ) : Fin B → Fin Ty → ℚ :=
  let r1 := if use_self_critic_cv
    then fun b j => reward b j - self_critic_score b j else reward
  let r2 := if use_mean_cv then fun b j => r1 b j - avg_reward else r1
  if use_std_cv then fun b j => r2 b j / max std_reward 1 else r2

/-- Embedding of `AlignmentVAE.loss` (vae.py lines 268-331).  The
transcendental cross-entropy kernel `ce`, the per-cell KL values `KLcell`
(that is, `torchdist.kl.kl_divergence(qa, pa)` before masking), the
self-critic scores and the per-cell `qa.log_prob(A)` values are abstract
inputs; everything after them follows the source line by line. -/
def AlignmentVAE.loss (B Ty Tx V : ℕ) (dist : String)
    (use_self_critic_cv use_mean_cv use_std_cv : Bool)
    (avg_reward std_reward : ℚ)
    (ce : (Fin V → ℚ) → Fin V → ℚ)
    (self_critic_score : Fin B → Fin Ty → ℚ)
    (log_prob_A : Cells B Ty Tx)
    (logits : Fin B → Fin Ty → Fin V → ℚ) (y : Fin B → Fin Ty → Fin V)
    (pad_idx : Fin V)
    (seq_mask_x : Fin B → Fin Tx → Bool) (seq_mask_y : Fin B → Fin Ty → Bool)
    (KLcell : Cells B Ty Tx) (KL_multiplier : ℚ) (reduction : String) :
    Except ModelError (LossOutput B Ty) :=
  let neg_log_py_xa := cross_entropy_none B Ty V ce logits y pad_idx
  let KL := KLsum B Ty Tx seq_mask_x seq_mask_y KLcell
  -- loss = neg_log_py_xa.sum(dim=-1) + KL_multiplier * KL
  let loss0 : Fin B → ℚ :=
    fun b => recNLL B Ty V ce logits y pad_idx b + KL_multiplier * KL b
  -- ELBO = -loss + KL_multiplier * KL - KL
  let elbo : Fin B → ℚ := fun b => -loss0 b + KL_multiplier * KL b - KL b
  -- REINFORCE surrogate branch
  let lossF : Fin B → ℚ :=
    if dist = "bernoulli-RF" then
      let reward : Fin B → Fin Ty → ℚ := fun b j => -neg_log_py_xa b j
      let nr := normalizeReward B Ty use_self_critic_cv use_mean_cv use_std_cv
        avg_reward std_reward self_critic_score reward
      let log_qa_sample : Fin B → Fin Ty → ℚ := fun b j => ∑ i, log_prob_A b j i
      fun b => loss0 b - ∑ j, nr b j * log_qa_sample b j
    else loss0
  let mkOut : LossReduced B → LossOutput B Ty := fun red =>
    { log_py_xa := fun b j => -neg_log_py_xa b j
      KL := KL
      ELBO := elbo
      lossPre := lossF
      loss := red }
  if reduction = "mean" then
    Except.ok (mkOut (LossReduced.scalar ((∑ b, lossF b) / (B : ℚ))))
  else if reduction = "sum" then
    Except.ok (mkOut (LossReduced.scalar (∑ b, lossF b)))
  else if reduction = "none" then
    Except.ok (mkOut (LossReduced.vec lossF))
  else Except.error (ModelError.unknownReduction reduction)

/-- Model of `ratio.clamp(min=1.0-eps, max=1.0+eps)` (vae.py line 342). -/
def ppoClamp (eps x : ℚ) : ℚ := min (max x (1 - eps)) (1 + eps)

/-- The `output_dict` of `AlignmentVAE.ppo_loss`.  Note the type of `loss`:
in the source, `torch.max(...).mean()` is a scalar but `KL * KL_multiplier`
is a `[B]` tensor, so their sum broadcasts to a `[B]` tensor, embedded here
as a function of the batch index. -/
structure PPOOutput (B Ty : ℕ) where
  loss : Fin B → ℚ
  reward : Fin B → Fin Ty → ℚ

/-- Embedding of `AlignmentVAE.ppo_loss` (vae.py lines 333-374).  `expQ`
abstracts `torch.exp`; `log_prob_A_init` and `log_prob_A_new` are the
per-cell log-probabilities of the fixed sample `A` under the snapshot and
the fresh posterior; `rewardArg` is the optional precomputed reward
(`reward=None` recomputes it from `log_py_xa` through the control-variate
pipeline). -/
def AlignmentVAE.ppo_loss (B Ty Tx : ℕ) (expQ : ℚ → ℚ)
    (use_self_critic_cv use_mean_cv use_std_cv : Bool)
    (avg_reward std_reward : ℚ)
    (self_critic_score : Fin B → Fin Ty → ℚ)
    (log_prob_A_init log_prob_A_new : Cells B Ty Tx)
    (log_py_xa : Fin B → Fin Ty → ℚ)
    (rewardArg : Option (Fin B → Fin Ty → ℚ))
    (seq_mask_x : Fin B → Fin Tx → Bool) (seq_mask_y : Fin B → Fin Ty → Bool)
    (KLcell : Cells B Ty Tx) (eps KL_multiplier : ℚ) : PPOOutput B Ty :=
  let log_qa_init : Fin B → Fin Ty → ℚ := fun b j => ∑ i, log_prob_A_init b j i
  let log_qa_new : Fin B → Fin Ty → ℚ := fun b j => ∑ i, log_prob_A_new b j i
  let ratioRaw : Fin B → Fin Ty → ℚ :=
    fun b j => expQ (log_qa_new b j - log_qa_init b j)
  let ratioClip : Fin B → Fin Ty → ℚ := fun b j => ppoClamp eps (ratioRaw b j)
  let reward : Fin B → Fin Ty → ℚ :=
    match rewardArg with
    | some r => r
    | none => normalizeReward B Ty use_self_critic_cv use_mean_cv use_std_cv
        avg_reward std_reward self_critic_score log_py_xa
  let KL := KLsum B Ty Tx seq_mask_x seq_mask_y KLcell
  -- torch.max(-reward * ratio, -reward * ratio_c).mean() + KL * KL_multiplier
  let surrogateMean : ℚ :=
    (∑ b, ∑ j, max (-reward b j * ratioRaw b j) (-reward b j * ratioClip b j))
      / ((B : ℚ) * (Ty : ℚ))
  { loss := fun b => surrogateMean + KL b * KL_multiplier
    reward := reward }

/-- Value of `self.alpha = 0.05` (vae.py line 133). -/
def AlignmentVAE.alpha : ℚ := 1 / 20

/-- Model of `new_reward.sum(dim=-1) / seq_len_y` (vae.py line 261). -/
def lengthNormalizedReward (B Ty : ℕ) (new_reward : Fin B → Fin Ty → ℚ)
    (seq_len_y : Fin B → ℚ) : Fin B → ℚ :=
  fun b => (∑ j, new_reward b j) / seq_len_y b

/-- Model of `tensor.mean()` over a `[B]` tensor. -/
def tensorMean (B : ℕ) (v : Fin B → ℚ) : ℚ := (∑ b, v b) / (B : ℚ)

/-- The `avg_reward` half of `AlignmentVAE.update_baselines`
(vae.py lines 259-264):
`alpha * new_reward.mean() + (1 - alpha) * avg_reward` on the
length-normalized rewards. -/
def update_avg_reward (B Ty : ℕ) (alpha avg_reward : ℚ)
    (new_reward : Fin B → Fin Ty → ℚ) (seq_len_y : Fin B → ℚ) : ℚ :=
  alpha * tensorMean B (lengthNormalizedReward B Ty new_reward seq_len_y)
    + (1 - alpha) * avg_reward

/-- Lift a binary arithmetic operation to NaN-tracking values: `none`
models IEEE NaN and propagates through every arithmetic operation. -/
def nanLift (f : ℚ → ℚ → ℚ) : Option ℚ → Option ℚ → Option ℚ
  | some a, some b => some (f a b)
  | _, _ => none

/-- Model of `torch.Tensor.std()` on a `[B]` tensor: the default Bessel-corrected
sample standard deviation divides the summed squared deviations by
`B - 1`, which for fewer than two elements is the indeterminate form
`0 / 0`, an IEEE NaN (`none`).  For `B ≥ 2` the value is the square root
of the nonnegative sample variance, with `sqrtQ` abstracting the
irrational square root. -/
def tensorStd (B : ℕ) (sqrtQ : ℚ → ℚ) (v : Fin B → ℚ) : Option ℚ :=
  if 2 ≤ B then
    some (sqrtQ ((∑ b, (v b - tensorMean B v) ^ 2) / ((B : ℚ) - 1)))
  else none

/-- The `std_reward` half of `AlignmentVAE.update_baselines`
(vae.py lines 259-266), NaN-tracking:
`alpha * new_reward.std() + (1 - alpha) * std_reward` on the
length-normalized rewards. -/
def update_std_reward (B Ty : ℕ) (sqrtQ : ℚ → ℚ) (alpha : ℚ)
    (std_reward : Option ℚ) (new_reward : Fin B → Fin Ty → ℚ)
    (seq_len_y : Fin B → ℚ) : Option ℚ :=
  nanLift (fun a b => a + b)
    (nanLift (fun a b => a * b) (some alpha)
      (tensorStd B sqrtQ (lengthNormalizedReward B Ty new_reward seq_len_y)))
    (nanLift (fun a b => a * b) (some (1 - alpha)) std_reward)

/-- Model of `self.std_reward.clamp(min=1.0)` (vae.py line 313); `torch.clamp`
propagates NaN. -/
def clampMinOne : Option ℚ → Option ℚ
  | none => none
  | some x => some (max x 1)

/-- The std-normalization step of the control-variate pipeline
(vae.py lines 311-313) with a NaN-tracking `std_reward`:
`normalized_reward / self.std_reward.clamp(min=1.0)`.  Division by a
`some` value is exact (the clamp keeps the divisor at least 1, so the
division-by-zero infinities of IEEE arithmetic cannot arise). -/
def stdNormalizeReward (r : ℚ) (std_reward : Option ℚ) : Option ℚ :=
  nanLift (fun a b => a / b) (some r) (clampMinOne std_reward)

/-! ## Helper lemmas -/

theorem prior_bernoulli_eq (B Ty Tx : ℕ) (dist : String)
    (hdist : strIn "bernoulli" dist = true) (p1 p2 eps : ℚ)
    (table : ℕ → Option (ℚ × ℚ)) (mx : Fin B → Fin Tx → Bool)
    (lx : Fin B → ℕ) :
    AlignmentVAE.prior B Ty Tx dist p1 p2 eps table mx lx =
      (if 0 < p1 then
        Except.ok (some (PriorResult.bernoulliRF (fun b _ i =>
          min (p1 * (maskFloat (mx b i) + eps) / ((lx b : ℚ) + 1))
              (1 - 1 / 100))))
      else if 0 < p2 then
        Except.ok (some (PriorResult.bernoulliRF (fun _ _ _ => p2)))
      else Except.error (ModelError.invalidPriorParams p1 p2)) := by
  simp only [AlignmentVAE.prior, hdist, if_true]

theorem mem_insertByFirst (x y : ℚ × ℚ × ℚ) (l : List (ℚ × ℚ × ℚ)) :
    y ∈ insertByFirst x l ↔ y = x ∨ y ∈ l := by
  induction l with
  | nil => simp [insertByFirst]
  | cons z zs ih =>
    unfold insertByFirst
    by_cases h : x.1 ≤ z.1
    · simp [h]
    · simp only [h, if_false, List.mem_cons, ih]
      tauto

theorem mem_sortByFirst (y : ℚ × ℚ × ℚ) (l : List (ℚ × ℚ × ℚ)) :
    y ∈ sortByFirst l ↔ y ∈ l := by
  induction l with
  | nil => simp [sortByFirst]
  | cons z zs ih =>
    simp [sortByFirst, mem_insertByFirst, ih]

theorem insertByFirst_ne_nil (x : ℚ × ℚ × ℚ) (l : List (ℚ × ℚ × ℚ)) :
    insertByFirst x l ≠ [] := by
  cases l with
  | nil => simp [insertByFirst]
  | cons z zs =>
    unfold insertByFirst
    split <;> simp

theorem sortByFirst_ne_nil (l : List (ℚ × ℚ × ℚ)) (hl : l ≠ []) :
    sortByFirst l ≠ [] := by
  cases l with
  | nil => exact absurd rfl hl
  | cons x xs => exact insertByFirst_ne_nil x (sortByFirst xs)

theorem mkKumaPriors_b_one (cdf : ℚ → ℚ) (eps : ℚ) (N : ℕ) :
    ∀ t ∈ mkKumaPriors cdf eps N, t.2.1 = 1 := by
  intro t ht
  rw [mkKumaPriors, mem_sortByFirst] at ht
  obtain ⟨a, _, rfl⟩ := List.mem_map.mp ht
  rfl

theorem mkKumaPriors_ne_nil (cdf : ℚ → ℚ) (eps : ℚ) (N : ℕ) (hN : 0 < N) :
    mkKumaPriors cdf eps N ≠ [] := by
  unfold mkKumaPriors
  apply sortByFirst_ne_nil
  intro hcontra
  have hlen := congrArg List.length hcontra
  simp only [linspace, List.length_map, List.length_range, List.length_nil] at hlen
  omega

theorem scanPriors_mem (p : ℚ) (l : List (ℚ × ℚ × ℚ)) (hl : l ≠ []) :
    ∃ t ∈ l, scanPriors p l = some (t.1, t.2.1) := by
  induction l with
  | nil => exact absurd rfl hl
  | cons t rest ih =>
    by_cases h : t.2.2 ≤ p
    · refine ⟨t, List.mem_cons_self t rest, ?_⟩
      conv_lhs => unfold scanPriors
      rw [if_pos h]
    · cases rest with
      | nil =>
        refine ⟨t, List.mem_cons_self t [], ?_⟩
        conv_lhs => unfold scanPriors
        rw [if_neg h]
      | cons r rs =>
        obtain ⟨u, hu, he⟩ := ih (List.cons_ne_nil r rs)
        refine ⟨u, List.mem_cons_of_mem t hu, ?_⟩
        have hstep : scanPriors p (t :: r :: rs) = scanPriors p (r :: rs) := by
          conv_lhs => unfold scanPriors
          rw [if_neg h]
        rw [hstep]
        exact he

theorem scanPriors_exhaust (p : ℚ) (l : List (ℚ × ℚ × ℚ))
    (hall : ∀ t ∈ l, p < t.2.2) :
    scanPriors p l = l.getLast?.map (fun t => (t.1, t.2.1)) := by
  induction l with
  | nil => rfl
  | cons t rest ih =>
    have h : ¬ t.2.2 ≤ p := not_le.mpr (hall t (List.mem_cons_self t rest))
    cases rest with
    | nil =>
      conv_lhs => unfold scanPriors
      rw [if_neg h]
      rfl
    | cons r rs =>
      have hstep : scanPriors p (t :: r :: rs) = scanPriors p (r :: rs) := by
        conv_lhs => unfold scanPriors
        rw [if_neg h]
      simp only [hstep, ih (fun u hu => hall u (List.mem_cons_of_mem t hu)),
        List.getLast?_cons_cons]

/-! ## Claim theorems -/

/-- C1 counterexample: for `dist = "bernoulli-ST"` the inference network
builds a `BernoulliStraightThrough` posterior (vae.py line 71), while
`prior` builds a `BernoulliREINFORCE` prior (line 161), so the prior is
NOT of the same family variant as the posterior, contrary to the claim. -/
theorem bernoulliST_prior_variant_mismatch :
    InferenceNetwork.forwardFamily "bernoulli-ST" =
      Except.ok DistFamily.bernoulliStraightThrough
    ∧ AlignmentVAE.priorFamily 1 1 1 "bernoulli-ST" 1 0 epsilon (fun _ => none)
        (fun _ _ => true) (fun _ => 1) =
      Except.ok (some DistFamily.bernoulliREINFORCE)
    ∧ DistFamily.bernoulliREINFORCE ≠ DistFamily.bernoulliStraightThrough :=
  ⟨rfl, rfl, by decide⟩

/-- C1 (amended): for every Bernoulli configuration with valid prior
parameters, the prior built by `prior` is always the REINFORCE variant of
the Bernoulli family; it therefore matches the posterior family variant
for `dist = "bernoulli-RF"`, while for `dist = "bernoulli-ST"` the
posterior is the straight-through variant and the prior the REINFORCE
variant. -/
theorem prior_family_is_reinforce_variant (B Ty Tx : ℕ) (p1 p2 eps : ℚ)
    (table : ℕ → Option (ℚ × ℚ)) (mx : Fin B → Fin Tx → Bool)
    (lx : Fin B → ℕ) (h : 0 < p1 ∨ 0 < p2) :
    (AlignmentVAE.priorFamily B Ty Tx "bernoulli-RF" p1 p2 eps table mx lx =
        Except.ok (some DistFamily.bernoulliREINFORCE)
      ∧ AlignmentVAE.priorFamily B Ty Tx "bernoulli-ST" p1 p2 eps table mx lx =
        Except.ok (some DistFamily.bernoulliREINFORCE))
    ∧ InferenceNetwork.forwardFamily "bernoulli-RF" =
        Except.ok DistFamily.bernoulliREINFORCE
    ∧ InferenceNetwork.forwardFamily "bernoulli-ST" =
        Except.ok DistFamily.bernoulliStraightThrough := by
  refine ⟨⟨?_, ?_⟩, rfl, rfl⟩ <;>
  · unfold AlignmentVAE.priorFamily
    rw [prior_bernoulli_eq _ _ _ _ (by rfl)]
    by_cases hp1 : 0 < p1
    · rw [if_pos hp1]; rfl
    · rcases h with h1 | h2
      · exact absurd h1 hp1
      · rw [if_neg hp1, if_pos h2]; rfl

/-- C1 witness: the amended statement instantiated at a concrete
configuration. -/
theorem prior_family_is_reinforce_variant_w :
    (AlignmentVAE.priorFamily 2 2 3 "bernoulli-RF" 1 0 epsilon (fun _ => none)
        (fun _ _ => true) (fun _ => 3) =
        Except.ok (some DistFamily.bernoulliREINFORCE)
      ∧ AlignmentVAE.priorFamily 2 2 3 "bernoulli-ST" 1 0 epsilon (fun _ => none)
        (fun _ _ => true) (fun _ => 3) =
        Except.ok (some DistFamily.bernoulliREINFORCE))
    ∧ InferenceNetwork.forwardFamily "bernoulli-RF" =
        Except.ok DistFamily.bernoulliREINFORCE
    ∧ InferenceNetwork.forwardFamily "bernoulli-ST" =
        Except.ok DistFamily.bernoulliStraightThrough :=
  prior_family_is_reinforce_variant 2 2 3 1 0 epsilon (fun _ => none)
    (fun _ _ => true) (fun _ => 3) (Or.inl (by norm_num))

/-- C2 counterexample: with the nominal value of `epsilon`, the target
zero-probability at length 1 is strictly BELOW the one at length 2, so
`p0` is not monotonically decreasing in the sentence length (the same
strict increase holds for every `epsilon` below one third). -/
theorem p0_increases_one_two : p0 epsilon 1 < p0 epsilon 2 := by
  norm_num [p0, epsilon, min_def]

/-- C2 (amended): the target zero-probability
`p0 = 1 - min((1 + eps) / (length + 1), 1 - eps)` is monotonically
NONDECREASING in the sentence length: for lengths `L1 ≤ L2` we have
`p0 L1 ≤ p0 L2` (the target mass at zero grows as sentences lengthen). -/
theorem p0_monotone_nondecreasing (eps : ℚ) (he : 0 ≤ eps) (L1 L2 : ℕ)
    (h12 : L1 ≤ L2) : p0 eps L1 ≤ p0 eps L2 := by
  unfold p0
  have hdiv : (1 + eps) / ((L2 : ℚ) + 1) ≤ (1 + eps) / ((L1 : ℚ) + 1) := by
    have hc : ((L1 : ℚ) + 1) ≤ ((L2 : ℚ) + 1) := by
      have : (L1 : ℚ) ≤ (L2 : ℚ) := by exact_mod_cast h12
      linarith
    gcongr
  have hmin := min_le_min hdiv (le_refl (1 - eps))
  linarith

/-- C2 witness: the amended monotonicity at a concrete pair of lengths. -/
theorem p0_monotone_nondecreasing_w :
    0 ≤ epsilon ∧ p0 epsilon 3 ≤ p0 epsilon 7 :=
  ⟨by norm_num [epsilon],
   p0_monotone_nondecreasing epsilon (by norm_num [epsilon]) 3 7 (by norm_num)⟩

/-- C7: for a Bernoulli-family configuration, `prior` builds per-cell
probabilities as the words-per-sentence formula clamped at 0.99 and
independent of the target position when `prior_param_1 > 0`; a uniform
`prior_param_2` probability when `prior_param_1 ≤ 0 < prior_param_2`; and
raises otherwise. -/
theorem prior_bernoulli_cases (B Ty Tx : ℕ) (dist : String)
    (hdist : strIn "bernoulli" dist = true) (p1 p2 eps : ℚ)
    (table : ℕ → Option (ℚ × ℚ)) (mx : Fin B → Fin Tx → Bool)
    (lx : Fin B → ℕ) :
    (0 < p1 → ∃ probs : Cells B Ty Tx,
        AlignmentVAE.prior B Ty Tx dist p1 p2 eps table mx lx =
          Except.ok (some (PriorResult.bernoulliRF probs))
        ∧ (∀ b j i, probs b j i =
            min (p1 * (maskFloat (mx b i) + eps) / ((lx b : ℚ) + 1)) (99 / 100))
        ∧ (∀ b j j2 i, probs b j i = probs b j2 i)
        ∧ (∀ b j i, probs b j i ≤ 99 / 100))
    ∧ (¬ 0 < p1 → 0 < p2 →
        AlignmentVAE.prior B Ty Tx dist p1 p2 eps table mx lx =
          Except.ok (some (PriorResult.bernoulliRF (fun _ _ _ => p2))))
    ∧ (¬ 0 < p1 → ¬ 0 < p2 →
        AlignmentVAE.prior B Ty Tx dist p1 p2 eps table mx lx =
          Except.error (ModelError.invalidPriorParams p1 p2)) := by
  rw [prior_bernoulli_eq _ _ _ _ hdist]
  refine ⟨fun hp1 => ?_, fun hp1 hp2 => ?_, fun hp1 hp2 => ?_⟩
  · refine ⟨(fun b _ i =>
        min (p1 * (maskFloat (mx b i) + eps) / ((lx b : ℚ) + 1)) (1 - 1 / 100)),
      by rw [if_pos hp1], fun b j i => by norm_num, fun b j j2 i => rfl,
      fun b j i => ?_⟩
    calc min (p1 * (maskFloat (mx b i) + eps) / ((lx b : ℚ) + 1)) (1 - 1 / 100)
        ≤ 1 - 1 / 100 := min_le_right _ _
      _ ≤ 99 / 100 := by norm_num
  · rw [if_neg hp1, if_pos hp2]
  · rw [if_neg hp1, if_neg hp2]

/-- C7 witness: the Bernoulli prior cases at a concrete configuration. -/
theorem prior_bernoulli_cases_w :
    (0 < (2 : ℚ) → ∃ probs : Cells 1 2 2,
        AlignmentVAE.prior 1 2 2 "bernoulli-RF" 2 0 epsilon (fun _ => none)
          (fun _ _ => true) (fun _ => 2) =
          Except.ok (some (PriorResult.bernoulliRF probs))
        ∧ (∀ b j i, probs b j i =
            min (2 * (maskFloat true + epsilon) / ((2 : ℚ) + 1)) (99 / 100))
        ∧ (∀ b j j2 i, probs b j i = probs b j2 i)
        ∧ (∀ b j i, probs b j i ≤ 99 / 100))
    ∧ (¬ 0 < (2 : ℚ) → 0 < (0 : ℚ) →
        AlignmentVAE.prior 1 2 2 "bernoulli-RF" 2 0 epsilon (fun _ => none)
          (fun _ _ => true) (fun _ => 2) =
          Except.ok (some (PriorResult.bernoulliRF (fun _ _ _ => 0))))
    ∧ (¬ 0 < (2 : ℚ) → ¬ 0 < (0 : ℚ) →
        AlignmentVAE.prior 1 2 2 "bernoulli-RF" 2 0 epsilon (fun _ => none)
          (fun _ _ => true) (fun _ => 2) =
          Except.error (ModelError.invalidPriorParams 2 0)) :=
  prior_bernoulli_cases 1 2 2 "bernoulli-RF" rfl 2 0 epsilon (fun _ => none)
    (fun _ _ => true) (fun _ => 2)

/-- C8: `update_baselines` replaces `avg_reward` with
`0.05 * mean(length-normalized rewards) + 0.95 * avg_reward`, and two
successive updates with the identical reward batch never increase the
distance between `avg_reward` and the batch mean. -/
theorem update_baselines_geometric_approach (B Ty : ℕ) (avg : ℚ)
    (r : Fin B → Fin Ty → ℚ) (ly : Fin B → ℚ) :
    update_avg_reward B Ty AlignmentVAE.alpha avg r ly =
      (1 / 20) * tensorMean B (lengthNormalizedReward B Ty r ly)
        + (1 - 1 / 20) * avg
    ∧ |update_avg_reward B Ty AlignmentVAE.alpha
          (update_avg_reward B Ty AlignmentVAE.alpha avg r ly) r ly
        - tensorMean B (lengthNormalizedReward B Ty r ly)|
      ≤ |update_avg_reward B Ty AlignmentVAE.alpha avg r ly
        - tensorMean B (lengthNormalizedReward B Ty r ly)| := by
  constructor
  · rfl
  · set m := tensorMean B (lengthNormalizedReward B Ty r ly) with hm
    set a1 := update_avg_reward B Ty AlignmentVAE.alpha avg r ly with ha1
    have h2 : update_avg_reward B Ty AlignmentVAE.alpha a1 r ly - m =
        (19 / 20) * (a1 - m) := by
      unfold update_avg_reward AlignmentVAE.alpha
      rw [← hm]
      ring
    rw [h2, abs_mul, show |(19 / 20 : ℚ)| = 19 / 20 by norm_num]
    nlinarith [abs_nonneg (a1 - m)]

/-- C9: constructing a posterior through the inference network for the
bounded Kumaraswamy families fails with the not-implemented error
(vae.py lines 76-79), and constructing a prior for the continuous
relaxation fails with the not-implemented error (lines 162-163); neither
falls back to another family. -/
theorem unimplemented_paths_fail_fast :
    InferenceNetwork.forwardFamily "kuma" = Except.error ModelError.notImplemented
    ∧ InferenceNetwork.forwardFamily "hardkuma" =
        Except.error ModelError.notImplemented
    ∧ ∀ (B Ty Tx : ℕ) (p1 p2 eps : ℚ) (table : ℕ → Option (ℚ × ℚ))
        (mx : Fin B → Fin Tx → Bool) (lx : Fin B → ℕ),
        AlignmentVAE.prior B Ty Tx "concrete" p1 p2 eps table mx lx =
          Except.error ModelError.notImplemented := by
  exact ⟨rfl, rfl, fun B Ty Tx p1 p2 eps table mx lx => rfl⟩

/-- C3: a cell whose source or target position is invalid is zeroed by the
two `torch.where` steps, so the per-batch-element KL sum does not depend on
the per-cell KL values outside the valid mask; and a target position whose
token is the padding index contributes exactly zero to the reconstruction
negative log-likelihood through the ignore-index of the cross-entropy. -/
theorem masked_cells_contribute_zero (B Ty Tx V : ℕ)
    (mx : Fin B → Fin Tx → Bool) (my : Fin B → Fin Ty → Bool)
    (ce : (Fin V → ℚ) → Fin V → ℚ) (logits : Fin B → Fin Ty → Fin V → ℚ)
    (y : Fin B → Fin Ty → Fin V) (pad_idx : Fin V) :
    (∀ (K : Cells B Ty Tx) (b : Fin B) (j : Fin Ty) (i : Fin Tx),
        mx b i = false ∨ my b j = false → maskKL B Ty Tx mx my K b j i = 0)
    ∧ (∀ K1 K2 : Cells B Ty Tx,
        (∀ b j i, mx b i = true → my b j = true → K1 b j i = K2 b j i) →
        KLsum B Ty Tx mx my K1 = KLsum B Ty Tx mx my K2)
    ∧ (∀ (b : Fin B) (j : Fin Ty), y b j = pad_idx →
        cross_entropy_none B Ty V ce logits y pad_idx b j = 0) := by
  have hcell : ∀ (K : Cells B Ty Tx) (b : Fin B) (j : Fin Ty) (i : Fin Tx),
      mx b i = false ∨ my b j = false → maskKL B Ty Tx mx my K b j i = 0 := by
    intro K b j i h
    unfold maskKL
    rcases h with h | h <;> simp [h]
  refine ⟨hcell, ?_, ?_⟩
  · intro K1 K2 hagree
    funext b
    unfold KLsum
    refine Finset.sum_congr rfl fun j _ => Finset.sum_congr rfl fun i _ => ?_
    by_cases hx : mx b i
    · by_cases hy : my b j
      · unfold maskKL
        simp [hx, hy, hagree b j i hx hy]
      · rw [hcell K1 b j i (Or.inr (by simpa using hy)),
            hcell K2 b j i (Or.inr (by simpa using hy))]
    · rw [hcell K1 b j i (Or.inl (by simpa using hx)),
          hcell K2 b j i (Or.inl (by simpa using hx))]
  · intro b j h
    unfold cross_entropy_none
    simp [h]

/-- C3 witness: the masking facts at a concrete batch. -/
theorem masked_cells_contribute_zero_w :
    (∀ (K : Cells 1 1 1) (b : Fin 1) (j : Fin 1) (i : Fin 1),
        (fun _ _ => false) b i = false ∨ (fun _ _ => true) b j = false →
        maskKL 1 1 1 (fun _ _ => false) (fun _ _ => true) K b j i = 0)
    ∧ (∀ K1 K2 : Cells 1 1 1,
        (∀ b j i, (fun _ _ => false) b i = true → (fun _ _ => true) b j = true →
          K1 b j i = K2 b j i) →
        KLsum 1 1 1 (fun _ _ => false) (fun _ _ => true) K1 =
          KLsum 1 1 1 (fun _ _ => false) (fun _ _ => true) K2)
    ∧ (∀ (b : Fin 1) (j : Fin 1), (fun _ _ => (0 : Fin 2)) b j = 0 →
        cross_entropy_none 1 1 2 (fun f v => f v) (fun _ _ _ => 5)
          (fun _ _ => (0 : Fin 2)) 0 b j = 0) :=
  masked_cells_contribute_zero 1 1 1 2 (fun _ _ => false) (fun _ _ => true)
    (fun f v => f v) (fun _ _ _ => 5) (fun _ _ => (0 : Fin 2)) 0

/-- C4: with the REINFORCE branch inactive, `loss` with reduction `none`
returns per batch element the summed reconstruction NLL plus
`KL_multiplier` times the masked KL, while the reported ELBO is the
negated summed NLL minus the UNSCALED KL, hence identical for every value
of the multiplier. -/
theorem loss_total_and_unscaled_elbo (B Ty Tx V : ℕ) (dist : String)
    (hdist : dist ≠ "bernoulli-RF") (usc umc ustd : Bool) (avg std : ℚ)
    (ce : (Fin V → ℚ) → Fin V → ℚ) (sc : Fin B → Fin Ty → ℚ)
    (lpA : Cells B Ty Tx) (logits : Fin B → Fin Ty → Fin V → ℚ)
    (y : Fin B → Fin Ty → Fin V) (pad_idx : Fin V)
    (mx : Fin B → Fin Tx → Bool) (my : Fin B → Fin Ty → Bool)
    (KLcell : Cells B Ty Tx) (c c2 : ℚ) :
    ((AlignmentVAE.loss B Ty Tx V dist usc umc ustd avg std ce sc lpA logits y
        pad_idx mx my KLcell c "none").map (fun o => o.loss) =
      Except.ok (LossReduced.vec (fun b =>
        recNLL B Ty V ce logits y pad_idx b + c * KLsum B Ty Tx mx my KLcell b)))
    ∧ ((AlignmentVAE.loss B Ty Tx V dist usc umc ustd avg std ce sc lpA logits y
        pad_idx mx my KLcell c "none").map (fun o => o.ELBO) =
      Except.ok (fun b =>
        -recNLL B Ty V ce logits y pad_idx b - KLsum B Ty Tx mx my KLcell b))
    ∧ ((AlignmentVAE.loss B Ty Tx V dist usc umc ustd avg std ce sc lpA logits y
        pad_idx mx my KLcell c "none").map (fun o => o.ELBO) =
      (AlignmentVAE.loss B Ty Tx V dist usc umc ustd avg std ce sc lpA logits y
        pad_idx mx my KLcell c2 "none").map (fun o => o.ELBO)) := by
  refine ⟨?_, ?_, ?_⟩ <;>
    simp only [AlignmentVAE.loss, if_neg hdist,
      if_neg (show ¬ ("none" : String) = "mean" by decide),
      if_neg (show ¬ ("none" : String) = "sum" by decide),
      if_pos (show ("none" : String) = "none" by rfl), Except.map, if_true] <;>
    first
      | rfl
      | (congr 1; funext b; ring)

/-- C4 witness: the loss and ELBO identities at a concrete small batch. -/
theorem loss_total_and_unscaled_elbo_w :
    ((AlignmentVAE.loss 1 1 1 2 "bernoulli-ST" false false false 0 1
        (fun f v => f v) (fun _ _ => 0) (fun _ _ _ => 0) (fun _ _ _ => 7)
        (fun _ _ => (1 : Fin 2)) 0 (fun _ _ => true) (fun _ _ => true)
        (fun _ _ _ => 5) 2 "none").map (fun o => o.loss) =
      Except.ok (LossReduced.vec (fun b =>
        recNLL 1 1 2 (fun f v => f v) (fun _ _ _ => 7) (fun _ _ => (1 : Fin 2)) 0 b
          + 2 * KLsum 1 1 1 (fun _ _ => true) (fun _ _ => true) (fun _ _ _ => 5) b)))
    ∧ ((AlignmentVAE.loss 1 1 1 2 "bernoulli-ST" false false false 0 1
        (fun f v => f v) (fun _ _ => 0) (fun _ _ _ => 0) (fun _ _ _ => 7)
        (fun _ _ => (1 : Fin 2)) 0 (fun _ _ => true) (fun _ _ => true)
        (fun _ _ _ => 5) 2 "none").map (fun o => o.ELBO) =
      Except.ok (fun b =>
        -recNLL 1 1 2 (fun f v => f v) (fun _ _ _ => 7) (fun _ _ => (1 : Fin 2)) 0 b
          - KLsum 1 1 1 (fun _ _ => true) (fun _ _ => true) (fun _ _ _ => 5) b))
    ∧ ((AlignmentVAE.loss 1 1 1 2 "bernoulli-ST" false false false 0 1
        (fun f v => f v) (fun _ _ => 0) (fun _ _ _ => 0) (fun _ _ _ => 7)
        (fun _ _ => (1 : Fin 2)) 0 (fun _ _ => true) (fun _ _ => true)
        (fun _ _ _ => 5) 2 "none").map (fun o => o.ELBO) =
      (AlignmentVAE.loss 1 1 1 2 "bernoulli-ST" false false false 0 1
        (fun f v => f v) (fun _ _ => 0) (fun _ _ _ => 0) (fun _ _ _ => 7)
        (fun _ _ => (1 : Fin 2)) 0 (fun _ _ => true) (fun _ _ => true)
        (fun _ _ _ => 5) 3 "none").map (fun o => o.ELBO)) :=
  loss_total_and_unscaled_elbo 1 1 1 2 "bernoulli-ST" (by decide)
    false false false 0 1 (fun f v => f v) (fun _ _ => 0) (fun _ _ _ => 0)
    (fun _ _ _ => 7) (fun _ _ => (1 : Fin 2)) 0 (fun _ _ => true)
    (fun _ _ => true) (fun _ _ _ => 5) 2 3

/-- C5 counterexample: on a batch of two sentences `ppo_loss` does not
return a single scalar loss: the `loss` entry of its output dictionary is
a per-batch-element tensor whose two components differ, because the scalar
`torch.max(...).mean()` is added to the UNREDUCED per-element KL vector. -/
theorem ppo_loss_not_scalar :
    (AlignmentVAE.ppo_loss 2 1 1 (fun _ => 1) false false false 0 1
      (fun _ _ => 0) (fun _ _ _ => 0) (fun _ _ _ => 0) (fun _ _ => 0)
      (some (fun _ _ => 1)) (fun _ _ => true) (fun _ _ => true)
      (fun b _ _ => ((b : ℕ) : ℚ)) (1 / 10) 1).loss 0 ≠
    (AlignmentVAE.ppo_loss 2 1 1 (fun _ => 1) false false false 0 1
      (fun _ _ => 0) (fun _ _ _ => 0) (fun _ _ _ => 0) (fun _ _ => 0)
      (some (fun _ _ => 1)) (fun _ _ => true) (fun _ _ => true)
      (fun b _ _ => ((b : ℕ) : ℚ)) (1 / 10) 1).loss 1 := by
  simp only [AlignmentVAE.ppo_loss, KLsum, maskKL, ppoClamp,
    Fin.sum_univ_two, Fin.sum_univ_one]
  norm_num

/-- C5 (amended): `ppo_loss` returns a PER-BATCH-ELEMENT loss whose entry
at `b` is the mean over all (batch element, target position) pairs of
`max(-reward * ratio, -reward * clipped ratio)` plus `KL_multiplier` times
that element's own masked KL (the KL term is left unreduced, so the sum
broadcasts); the ratio clamp keeps every value inside `[1 - eps, 1 + eps]`
and leaves values already inside that interval unchanged. -/
theorem ppo_loss_per_element_form (B Ty Tx : ℕ) (expQ : ℚ → ℚ)
    (usc umc ustd : Bool) (avg std : ℚ) (sc : Fin B → Fin Ty → ℚ)
    (lpAi lpAn : Cells B Ty Tx) (lpyxa : Fin B → Fin Ty → ℚ)
    (reward : Fin B → Fin Ty → ℚ) (mx : Fin B → Fin Tx → Bool)
    (my : Fin B → Fin Ty → Bool) (KLcell : Cells B Ty Tx) (eps c : ℚ)
    (heps : 0 ≤ eps) :
    (∀ b, (AlignmentVAE.ppo_loss B Ty Tx expQ usc umc ustd avg std sc lpAi lpAn
        lpyxa (some reward) mx my KLcell eps c).loss b =
      (∑ b2, ∑ j,
          max (-reward b2 j * expQ ((∑ i, lpAn b2 j i) - ∑ i, lpAi b2 j i))
            (-reward b2 j *
              ppoClamp eps (expQ ((∑ i, lpAn b2 j i) - ∑ i, lpAi b2 j i))))
        / ((B : ℚ) * (Ty : ℚ))
      + KLsum B Ty Tx mx my KLcell b * c)
    ∧ (∀ x, 1 - eps ≤ ppoClamp eps x ∧ ppoClamp eps x ≤ 1 + eps)
    ∧ (∀ x, 1 - eps ≤ x → x ≤ 1 + eps → ppoClamp eps x = x) := by
  refine ⟨fun b => rfl, fun x => ⟨?_, min_le_right _ _⟩, fun x h1 h2 => ?_⟩
  · exact le_min (le_max_right _ _) (by linarith)
  · unfold ppoClamp
    rw [max_eq_left h1, min_eq_left h2]

/-- C5 witness: the per-element form and clamp bounds at a concrete
configuration. -/
theorem ppo_loss_per_element_form_w :
    (∀ b, (AlignmentVAE.ppo_loss 2 1 1 (fun q => q) false false false 0 1
        (fun _ _ => 0) (fun _ _ _ => 0) (fun _ _ _ => 0) (fun _ _ => 0)
        (some (fun _ _ => 1)) (fun _ _ => true) (fun _ _ => true)
        (fun _ _ _ => 5) (1 / 10) 1).loss b =
      (∑ b2, ∑ j,
          max (-(fun (_ : Fin 2) (_ : Fin 1) => (1 : ℚ)) b2 j *
              (fun q => q) ((∑ i, (fun (_ : Fin 2) (_ : Fin 1) (_ : Fin 1) => (0 : ℚ)) b2 j i)
                - ∑ i, (fun (_ : Fin 2) (_ : Fin 1) (_ : Fin 1) => (0 : ℚ)) b2 j i))
            (-(fun (_ : Fin 2) (_ : Fin 1) => (1 : ℚ)) b2 j *
              ppoClamp (1 / 10)
                ((fun q => q) ((∑ i, (fun (_ : Fin 2) (_ : Fin 1) (_ : Fin 1) => (0 : ℚ)) b2 j i)
                  - ∑ i, (fun (_ : Fin 2) (_ : Fin 1) (_ : Fin 1) => (0 : ℚ)) b2 j i))))
        / ((2 : ℚ) * (1 : ℚ))
      + KLsum 2 1 1 (fun _ _ => true) (fun _ _ => true) (fun _ _ _ => 5) b * 1)
    ∧ (∀ x, 1 - 1 / 10 ≤ ppoClamp (1 / 10) x ∧ ppoClamp (1 / 10) x ≤ 1 + 1 / 10)
    ∧ (∀ x, 1 - 1 / 10 ≤ x → x ≤ 1 + 1 / 10 → ppoClamp (1 / 10) x = x) :=
  ppo_loss_per_element_form 2 1 1 (fun q => q) false false false 0 1
    (fun _ _ => 0) (fun _ _ _ => 0) (fun _ _ _ => 0) (fun _ _ => 0)
    (fun _ _ => 1) (fun _ _ => true) (fun _ _ => true) (fun _ _ _ => 5)
    (1 / 10) 1 (by norm_num)

/-- C6: the finished HardKuma prior table has an entry for every integer
length in `[1, max_sentence_length]`, every recorded pair has second
component exactly `1`, and when every candidate keeps `cdf0` above the
target `p0` the scan exhausts the list and records the LAST candidate
without raising. -/
theorem hardkuma_prior_table_total (cdf : ℚ → ℚ) (eps : ℚ) (M N L : ℕ)
    (hN : 0 < N) (hL1 : 1 ≤ L) (hLM : L ≤ M) :
    (∃ a, AlignmentVAE.create_hardkuma_prior_table cdf eps M N L = some (a, 1))
    ∧ ((∀ t ∈ mkKumaPriors cdf eps N, p0 eps L < t.2.2) →
        AlignmentVAE.create_hardkuma_prior_table cdf eps M N L =
          (mkKumaPriors cdf eps N).getLast?.map (fun t => (t.1, t.2.1))) := by
  have hne : mkKumaPriors cdf eps N ≠ [] := mkKumaPriors_ne_nil cdf eps N hN
  unfold AlignmentVAE.create_hardkuma_prior_table
  rw [if_pos ⟨hL1, hLM⟩]
  constructor
  · obtain ⟨t, ht, he⟩ := scanPriors_mem (p0 eps L) _ hne
    exact ⟨t.1, by rw [he, mkKumaPriors_b_one cdf eps N t ht]⟩
  · intro hall
    exact scanPriors_exhaust _ _ hall

/-- C6 witness: the table facts at a concrete small table. -/
theorem hardkuma_prior_table_total_w :
    (∃ a, AlignmentVAE.create_hardkuma_prior_table (fun _ => 1) epsilon 3 4 2 =
      some (a, 1))
    ∧ ((∀ t ∈ mkKumaPriors (fun _ => 1) epsilon 4, p0 epsilon 2 < t.2.2) →
        AlignmentVAE.create_hardkuma_prior_table (fun _ => 1) epsilon 3 4 2 =
          (mkKumaPriors (fun _ => 1) epsilon 4).getLast?.map
            (fun t => (t.1, t.2.1))) :=
  hardkuma_prior_table_total (fun _ => 1) epsilon 3 4 2 (by norm_num)
    (by norm_num) (by norm_num)

/-- C10: with a batch of exactly one sentence, the Bessel-corrected sample
standard deviation of the single length-normalized reward is the
indeterminate form `0 / 0` (an IEEE NaN, modelled by `none`), so the
updated `std_reward` is NaN and every subsequent std-normalized reward in
`loss` is NaN; the standard deviation is a well-defined (non-NaN) value
exactly when the batch holds at least two sentences. -/
theorem std_reward_nan_single_sentence (Ty : ℕ) (sqrtQ : ℚ → ℚ) (prev : ℚ)
    (r : Fin 1 → Fin Ty → ℚ) (ly : Fin 1 → ℚ) (x : ℚ) :
    update_std_reward 1 Ty sqrtQ AlignmentVAE.alpha (some prev) r ly = none
    ∧ stdNormalizeReward x
        (update_std_reward 1 Ty sqrtQ AlignmentVAE.alpha (some prev) r ly) = none
    ∧ ∀ (B : ℕ) (v : Fin B → ℚ), 2 ≤ B → (tensorStd B sqrtQ v).isSome = true := by
  have h0 : tensorStd 1 sqrtQ (lengthNormalizedReward 1 Ty r ly) = none := by
    unfold tensorStd
    rw [if_neg (by norm_num)]
  have h1 : update_std_reward 1 Ty sqrtQ AlignmentVAE.alpha (some prev) r ly
      = none := by
    unfold update_std_reward
    rw [h0]
    rfl
  refine ⟨h1, by rw [h1]; rfl, ?_⟩
  intro B v hB
  unfold tensorStd
  rw [if_pos hB]
  rfl

/-- C10 witness: the NaN propagation and the two-sentence well-definedness
at concrete inputs. -/
theorem std_reward_nan_single_sentence_w :
    update_std_reward 1 1 (fun q => q) AlignmentVAE.alpha (some 1)
      (fun _ _ => 2) (fun _ => 1) = none
    ∧ stdNormalizeReward 3
        (update_std_reward 1 1 (fun q => q) AlignmentVAE.alpha (some 1)
          (fun _ _ => 2) (fun _ => 1)) = none
    ∧ (tensorStd 2 (fun q => q) (fun _ => 5)).isSome = true :=
  ⟨(std_reward_nan_single_sentence 1 (fun q => q) 1 (fun _ _ => 2)
      (fun _ => 1) 3).1,
   (std_reward_nan_single_sentence 1 (fun q => q) 1 (fun _ _ => 2)
      (fun _ => 1) 3).2.1,
   (std_reward_nan_single_sentence 1 (fun q => q) 1 (fun _ _ => 2)
      (fun _ => 1) 3).2.2 2 (fun _ => 5) (by norm_num)⟩
